import Mathlib

/-!
Verification of the grade-computation and outlier-detection core of a
gradebook application (grade_manager.py, with the roster and assignment
stores of student_manager.py / assignment_manager.py).

Modelling conventions:
* Scores, weights and max scores are modelled as exact rationals (ℚ).
* Python dicts keyed by student id / assignment title are modelled as
  lists in insertion order; the managers store one entry per key, so the
  id (resp. title) projections are `Nodup` wherever that matters.
* The grades table of the database is a list of (student id, title, score)
  records; `get_student_grades` and `get_assignment_grades` are the two
  filtered views the source derives from it.
* `statistics.stdev` returns the square root of the Bessel-corrected
  sample variance.  The source only uses it through the tests
  `stdev > 0` and `|score - mean| / stdev > 2`; over exact arithmetic
  these are equivalent to `var > 0` and `(score - mean)^2 > 4 * var`,
  which is how the detector is embedded here (the equivalence over ℝ is
  proved in `zscore_sqrt_equiv` below).  The source interpolates the
  rounded z value into the reason message; reasons are embedded as an
  enumeration since no claim depends on the formatted digits.
* Python `sorted(..., key=..., reverse=True)` is a stable descending
  sort; it is embedded as the stable insertion sort `sortDesc`.
-/

namespace PyGrade

/-- A roster entry (student_manager.py keeps a dict id ↦ record). -/
structure Student where
  id : String
  name : String
deriving DecidableEq, Repr

/-- An assignment record (assignment_manager.py keeps a dict title ↦ record). -/
structure Assignment where
  title : String
  weight : ℚ
  maxScore : ℚ
deriving DecidableEq, Repr

/-- One row of the grades table: (student_id, assignment_title, score). -/
structure GradeRec where
  studentId : String
  title : String
  score : ℚ
deriving DecidableEq, Repr

/-- student_manager.get_student: dict lookup by id (first matching entry). -/
def getStudent (students : List Student) (sid : String) : Option Student :=
  students.find? (fun s => s.id == sid)

/-- assignment_manager.get_assignment: dict lookup by title. -/
def getAssignment (assignments : List Assignment) (t : String) : Option Assignment :=
  assignments.find? (fun a => a.title == t)

/-- database.get_student_grades: the rows of one student, as a
    (title ↦ score) association list in table order. -/
def getStudentGrades (g : List GradeRec) (sid : String) : List (String × ℚ) :=
  (g.filter (fun r => r.studentId == sid)).map (fun r => (r.title, r.score))

/-- database.get_assignment_grades: the rows of one assignment, as a
    (student id ↦ score) association list in table order. -/
def getAssignmentGrades (g : List GradeRec) (t : String) : List (String × ℚ) :=
  (g.filter (fun r => r.title == t)).map (fun r => (r.studentId, r.score))

/-- grade_manager._calculate_letter_grade. -/
def calculateLetterGrade (score : ℚ) : String :=
  if score ≥ 90 then "A"
  else if score ≥ 80 then "B"
  else if score ≥ 70 then "C"
  else if score ≥ 60 then "D"
  else "F"

/-- The result dict of calculate_student_final. -/
structure FinalGrade where
  weightedTotal : ℚ
  letterGrade : String
deriving DecidableEq, Repr

/-- One iteration of the accumulation loop of calculate_student_final:
    a found assignment contributes (score / max_score) * 100 * weight to the
    weighted total and weight to the total weight; a missing one is skipped. -/
def accumStep (assignments : List Assignment) (acc : ℚ × ℚ) (item : String × ℚ) : ℚ × ℚ :=
  match getAssignment assignments item.1 with
  | some a => (acc.1 + item.2 / a.maxScore * 100 * a.weight, acc.2 + a.weight)
  | none => acc

/-- grade_manager.calculate_student_final. -/
def calculateStudentFinal (g : List GradeRec) (assignments : List Assignment)
    (sid : String) : Option FinalGrade :=
  if getStudentGrades g sid = [] then none
  else
    let acc := (getStudentGrades g sid).foldl (accumStep assignments) (0, 0)
    let finalGrade : ℚ :=
      if acc.2 > 0 then (if acc.2 < 1 then acc.1 / acc.2 else acc.1) else 0
    some { weightedTotal := finalGrade, letterGrade := calculateLetterGrade finalGrade }

/-- The weighted sum accumulated by calculate_student_final, written as a sum
    over exactly the pairs whose assignment the lookup finds. -/
def weightedSumSpec (assignments : List Assignment) (l : List (String × ℚ)) : ℚ :=
  (l.filterMap (fun p =>
    (getAssignment assignments p.1).map (fun a => p.2 / a.maxScore * 100 * a.weight))).sum

/-- The total weight accumulated by calculate_student_final, written as a sum
    over exactly the pairs whose assignment the lookup finds. -/
def totalWeightSpec (assignments : List Assignment) (l : List (String × ℚ)) : ℚ :=
  (l.filterMap (fun p => (getAssignment assignments p.1).map (fun a => a.weight))).sum

/-- The reason tag of an outlier record.  The source stores message strings;
    the unusual-score message also interpolates the z value rounded to two
    decimals, which no claim depends on. -/
inductive Reason where
  | missingGrade
  | unusualScore
  | zeroScore
  | perfectScore
deriving DecidableEq, Repr

/-- The score field of an outlier record: the string "MISSING" or a number. -/
inductive ScoreVal where
  | missing
  | score (s : ℚ)
deriving DecidableEq, Repr

/-- One outlier dict appended by detect_outliers. -/
structure Outlier where
  studentId : String
  studentName : String
  assignment : String
  score : ScoreVal
  maxScore : ℚ
  reason : Reason
deriving DecidableEq, Repr

/-- statistics.mean (only applied to non-empty score lists by the source). -/
def mean (l : List ℚ) : ℚ := l.sum / l.length

/-- The square of statistics.stdev: the Bessel-corrected sample variance
    (only applied to lists of length at least 3 by the source). -/
def sampleVar (l : List ℚ) : ℚ :=
  (l.map (fun x => (x - mean l) ^ 2)).sum / ((l.length : ℚ) - 1)

/-- The first loop of detect_outliers: for each roster student, for each
    assignment, a missing-grade flag when the student has no score for it. -/
def missingFlags (students : List Student) (assignments : List Assignment)
    (g : List GradeRec) : List Outlier :=
  students.flatMap (fun st =>
    assignments.filterMap (fun a =>
      if (getStudentGrades g st.id).any (fun p => p.1 == a.title) then none
      else some { studentId := st.id, studentName := st.name, assignment := a.title,
                  score := ScoreVal.missing, maxScore := a.maxScore,
                  reason := Reason.missingGrade }))

/-- The z-score loop of detect_outliers for one assignment.  The source flags
    when `abs ((score - mean) / stdev) > 2` with the z-score taken as 0 when
    `stdev` is not positive; over exact arithmetic that test is equivalent to
    `0 < var ∧ 4 * var < (score - mean)^2` (see `zscore_sqrt_equiv`), which is
    the form used here.  A flag is emitted only when the roster resolves the
    student id. -/
def zFlagsFor (students : List Student) (a : Assignment) (g : List GradeRec) :
    List Outlier :=
  let ag := getAssignmentGrades g a.title
  let m := mean (ag.map Prod.snd)
  let v := sampleVar (ag.map Prod.snd)
  ag.filterMap (fun (p : String × ℚ) =>
    if 0 < v ∧ 4 * v < (p.2 - m) ^ 2 then
      match getStudent students p.1 with
      | some st => some { studentId := p.1, studentName := st.name,
                          assignment := a.title, score := ScoreVal.score p.2,
                          maxScore := a.maxScore, reason := Reason.unusualScore }
      | none => none
    else none)

/-- The zero/perfect-score loop of detect_outliers for one assignment.  The
    source skips ids the roster does not resolve; the perfect-score branch is
    an `elif` of the zero-score branch, so it is only reached for a non-zero
    score. -/
def zpFlagsFor (students : List Student) (a : Assignment) (g : List GradeRec) :
    List Outlier :=
  let ag := getAssignmentGrades g a.title
  let m := mean (ag.map Prod.snd)
  ag.filterMap (fun (p : String × ℚ) =>
    match getStudent students p.1 with
    | none => none
    | some st =>
      if p.2 = 0 then
        some { studentId := p.1, studentName := st.name, assignment := a.title,
               score := ScoreVal.score p.2, maxScore := a.maxScore,
               reason := Reason.zeroScore }
      else if p.2 = a.maxScore ∧ 5 < ag.length ∧ m / a.maxScore * 100 < 75 then
        some { studentId := p.1, studentName := st.name, assignment := a.title,
               score := ScoreVal.score p.2, maxScore := a.maxScore,
               reason := Reason.perfectScore }
      else none)

/-- The statistical phase of detect_outliers for one assignment: skipped
    entirely when fewer than 3 scores are recorded, otherwise the z-score loop
    followed by the zero/perfect loop.  (`statistics.stdev` cannot raise for 3
    or more data points, so the `except StatisticsError: continue` of the
    source is dead code on this path.) -/
def statFlagsFor (students : List Student) (a : Assignment) (g : List GradeRec) :
    List Outlier :=
  if (getAssignmentGrades g a.title).length < 3 then []
  else zFlagsFor students a g ++ zpFlagsFor students a g

/-- grade_manager.detect_outliers: all missing-grade flags, then the
    statistical flags assignment by assignment. -/
def detectOutliers (students : List Student) (assignments : List Assignment)
    (g : List GradeRec) : List Outlier :=
  missingFlags students assignments g ++
    assignments.flatMap (fun a => statFlagsFor students a g)

/-- One entry of the calculate_final_grades result list. -/
structure RankedEntry where
  studentId : String
  name : String
  weightedTotal : ℚ
  letterGrade : String
deriving DecidableEq, Repr

/-- The unsorted results list built by the loop of calculate_final_grades:
    one entry per roster student whose final grade exists. -/
def rankResults (students : List Student) (assignments : List Assignment)
    (g : List GradeRec) : List RankedEntry :=
  students.filterMap (fun st =>
    (calculateStudentFinal g assignments st.id).map (fun f =>
      { studentId := st.id, name := st.name, weightedTotal := f.weightedTotal,
        letterGrade := f.letterGrade }))

/-- Stable descending insertion: x goes in front of the first entry whose
    weighted total is not strictly greater, hence after every earlier entry
    with an equal total. -/
def insertDesc (x : RankedEntry) : List RankedEntry → List RankedEntry
  | [] => [x]
  | y :: ys =>
    if y.weightedTotal > x.weightedTotal then y :: insertDesc x ys
    else x :: y :: ys

/-- Stable insertion sort, descending by weighted total: the embedding of
    Python sorted(results, key=weighted_total, reverse=True). -/
def sortDesc : List RankedEntry → List RankedEntry
  | [] => []
  | x :: xs => insertDesc x (sortDesc xs)

/-- grade_manager.calculate_final_grades. -/
def calculateFinalGrades (students : List Student) (assignments : List Assignment)
    (g : List GradeRec) : List RankedEntry :=
  sortDesc (rankResults students assignments g)

/-- The position of a student id in roster order. -/
def rosterIndex (students : List Student) (sid : String) : ℕ :=
  (students.map Student.id).indexOf sid

/-- Selects the missing-grade flag of one (student, assignment) pair. -/
def missingFlagPred (st : Student) (a : Assignment) (o : Outlier) : Bool :=
  decide (o.studentId = st.id ∧ o.assignment = a.title ∧
    o.score = ScoreVal.missing ∧ o.reason = Reason.missingGrade)

/-! ## Helper lemmas -/

theorem foldl_accumStep (assignments : List Assignment) (l : List (String × ℚ))
    (ws tw : ℚ) :
    l.foldl (accumStep assignments) (ws, tw) =
      (ws + weightedSumSpec assignments l, tw + totalWeightSpec assignments l) := by
  induction l generalizing ws tw with
  | nil => simp [weightedSumSpec, totalWeightSpec]
  | cons p l ih =>
    simp only [List.foldl_cons, accumStep, weightedSumSpec, totalWeightSpec,
      List.filterMap_cons]
    cases h : getAssignment assignments p.1 with
    | none =>
      simpa [weightedSumSpec, totalWeightSpec, h] using ih ws tw
    | some a =>
      simp only [h, Option.map_some, List.sum_cons]
      rw [ih]
      simp [weightedSumSpec, totalWeightSpec]
      constructor <;> ring

/-- Justification of the embedded z-score test: for a positive variance v,
    `|d| / sqrt v > 2` holds exactly when `d^2 > 4 * v`. -/
theorem zscore_sqrt_equiv (d v : ℝ) (hv : 0 < v) :
    2 < |d| / Real.sqrt v ↔ 4 * v < d ^ 2 := by
  have hs : 0 < Real.sqrt v := Real.sqrt_pos.2 hv
  rw [lt_div_iff₀ hs]
  constructor
  · intro h
    have h2 : (2 * Real.sqrt v) ^ 2 < |d| ^ 2 := by
      apply pow_lt_pow_left₀ h (by positivity)
      norm_num
    calc 4 * v = (2 * Real.sqrt v) ^ 2 := by
          rw [mul_pow, Real.sq_sqrt hv.le]; ring
      _ < |d| ^ 2 := h2
      _ = d ^ 2 := sq_abs d
  · intro h
    have h2 : (2 * Real.sqrt v) ^ 2 < |d| ^ 2 := by
      calc (2 * Real.sqrt v) ^ 2 = 4 * v := by
            rw [mul_pow, Real.sq_sqrt hv.le]; ring
        _ < d ^ 2 := h
        _ = |d| ^ 2 := (sq_abs d).symm
    exact lt_of_pow_lt_pow_left₀ 2 (abs_nonneg d) h2

theorem calculateStudentFinal_none_iff (g : List GradeRec)
    (assignments : List Assignment) (sid : String) :
    calculateStudentFinal g assignments sid = none ↔ getStudentGrades g sid = [] := by
  unfold calculateStudentFinal
  split_ifs with h <;> simp [h]

/-! ## Claims -/

/-- C1: for a student with a non-empty score mapping, calculate_student_final
    accumulates weighted sum and total weight over exactly the pairs whose
    assignment the lookup finds, and finalizes asymmetrically: total weight 0
    gives 0.0, a total weight strictly between 0 and 1 divides the weighted
    sum by it, and a total weight of at least 1 leaves the weighted sum
    unchanged. -/
theorem claim_C1 (g : List GradeRec) (assignments : List Assignment) (sid : String)
    (h : getStudentGrades g sid ≠ []) :
    ∃ r : FinalGrade, calculateStudentFinal g assignments sid = some r ∧
      r.letterGrade = calculateLetterGrade r.weightedTotal ∧
      (totalWeightSpec assignments (getStudentGrades g sid) = 0 →
        r.weightedTotal = 0) ∧
      (0 < totalWeightSpec assignments (getStudentGrades g sid) →
        totalWeightSpec assignments (getStudentGrades g sid) < 1 →
        r.weightedTotal = weightedSumSpec assignments (getStudentGrades g sid) /
          totalWeightSpec assignments (getStudentGrades g sid)) ∧
      (1 ≤ totalWeightSpec assignments (getStudentGrades g sid) →
        r.weightedTotal = weightedSumSpec assignments (getStudentGrades g sid)) := by
  unfold calculateStudentFinal
  rw [if_neg h, foldl_accumStep]
  simp only [zero_add]
  refine ⟨_, rfl, rfl, ?_, ?_, ?_⟩
  · intro h0
    rw [h0]
    norm_num
  · intro hpos hlt
    rw [if_pos hpos, if_pos hlt]
  · intro hge
    rw [if_pos (by linarith), if_neg (by linarith)]

theorem claim_C1_witness :
    getStudentGrades [⟨"S1", "HW", 40⟩] "S1" ≠ [] ∧
    ∃ r : FinalGrade,
      calculateStudentFinal [⟨"S1", "HW", 40⟩] [⟨"HW", 1/2, 50⟩] "S1" = some r ∧
      r.letterGrade = calculateLetterGrade r.weightedTotal ∧
      (totalWeightSpec [⟨"HW", 1/2, 50⟩] (getStudentGrades [⟨"S1", "HW", 40⟩] "S1") = 0 →
        r.weightedTotal = 0) ∧
      (0 < totalWeightSpec [⟨"HW", 1/2, 50⟩] (getStudentGrades [⟨"S1", "HW", 40⟩] "S1") →
        totalWeightSpec [⟨"HW", 1/2, 50⟩] (getStudentGrades [⟨"S1", "HW", 40⟩] "S1") < 1 →
        r.weightedTotal =
          weightedSumSpec [⟨"HW", 1/2, 50⟩] (getStudentGrades [⟨"S1", "HW", 40⟩] "S1") /
          totalWeightSpec [⟨"HW", 1/2, 50⟩] (getStudentGrades [⟨"S1", "HW", 40⟩] "S1")) ∧
      (1 ≤ totalWeightSpec [⟨"HW", 1/2, 50⟩] (getStudentGrades [⟨"S1", "HW", 40⟩] "S1") →
        r.weightedTotal =
          weightedSumSpec [⟨"HW", 1/2, 50⟩] (getStudentGrades [⟨"S1", "HW", 40⟩] "S1")) :=
  ⟨by decide, claim_C1 [⟨"S1", "HW", 40⟩] [⟨"HW", 1/2, 50⟩] "S1" (by decide)⟩

/-- C2: _calculate_letter_grade is a total function on every rational score
    with no clamping: ≥ 90 gives A, [80, 90) gives B, [70, 80) gives C,
    [60, 70) gives D and everything below 60 (negatives included) gives F;
    in particular 90 gives A, 89.999 gives B, 60 gives D and 59.999 gives F. -/
theorem claim_C2 (s : ℚ) :
    ((calculateLetterGrade s = "A" ↔ 90 ≤ s) ∧
     (calculateLetterGrade s = "B" ↔ 80 ≤ s ∧ s < 90) ∧
     (calculateLetterGrade s = "C" ↔ 70 ≤ s ∧ s < 80) ∧
     (calculateLetterGrade s = "D" ↔ 60 ≤ s ∧ s < 70) ∧
     (calculateLetterGrade s = "F" ↔ s < 60)) ∧
    calculateLetterGrade 90 = "A" ∧ calculateLetterGrade (89999/1000) = "B" ∧
    calculateLetterGrade 60 = "D" ∧ calculateLetterGrade (59999/1000) = "F" := by
  constructor
  · unfold calculateLetterGrade
    split_ifs with h1 h2 h3 h4 <;>
      refine ⟨?_, ?_, ?_, ?_, ?_⟩ <;> simp_all <;>
      first
        | linarith
        | (constructor <;> linarith)
        | (rintro ⟨h5, h6⟩; linarith)
        | (intro h5; linarith)
  · refine ⟨by norm_num [calculateLetterGrade], by norm_num [calculateLetterGrade],
      by norm_num [calculateLetterGrade], by norm_num [calculateLetterGrade]⟩

/-- C3: calculate_student_final returns None exactly when the student's score
    mapping is empty; any non-empty score mapping yields a result, never an
    error, even when no referenced assignment is findable. -/
theorem claim_C3 (g : List GradeRec) (assignments : List Assignment) (sid : String) :
    (calculateStudentFinal g assignments sid = none ↔ getStudentGrades g sid = []) ∧
    (getStudentGrades g sid ≠ [] →
      ∃ r : FinalGrade, calculateStudentFinal g assignments sid = some r) := by
  constructor
  · exact calculateStudentFinal_none_iff g assignments sid
  · intro h
    unfold calculateStudentFinal
    rw [if_neg h]
    exact ⟨_, rfl⟩

theorem claim_C3_witness :
    (calculateStudentFinal [⟨"S1", "HW", 5⟩] [] "S1" = none ↔
      getStudentGrades [⟨"S1", "HW", 5⟩] "S1" = []) ∧
    ∃ r : FinalGrade, calculateStudentFinal [⟨"S1", "HW", 5⟩] [] "S1" = some r :=
  ⟨(claim_C3 [⟨"S1", "HW", 5⟩] [] "S1").1,
   (claim_C3 [⟨"S1", "HW", 5⟩] [] "S1").2 (by decide)⟩

/-- C4 counterexample: on the roster S1..S5 with scores 50, 52, 51, 53, 0 on
    one assignment, the claim predicts an unusual-score (z-score) flag for the
    student who scored 0, but the sample mean is 41.2 and the Bessel-corrected
    sample variance is 531.7, so (0 - 41.2)^2 = 1697.44 does not exceed
    4 * 531.7 = 2126.8: the z-score is about 1.79, not above the threshold 2,
    and detect_outliers emits no such flag. -/
theorem claim_C4_counterexample :
    ¬ ∃ o ∈ detectOutliers
        [⟨"S1", "Alice"⟩, ⟨"S2", "Bob"⟩, ⟨"S3", "Carol"⟩, ⟨"S4", "Dan"⟩, ⟨"S5", "Eve"⟩]
        [⟨"HW", 1, 100⟩]
        [⟨"S1", "HW", 50⟩, ⟨"S2", "HW", 52⟩, ⟨"S3", "HW", 51⟩, ⟨"S4", "HW", 53⟩,
         ⟨"S5", "HW", 0⟩],
      o.studentId = "S5" ∧ o.reason = Reason.unusualScore := by
  norm_num +decide [detectOutliers, missingFlags, statFlagsFor, zFlagsFor, zpFlagsFor,
    getStudentGrades, getAssignmentGrades, getStudent, mean, sampleVar,
    List.filterMap, List.flatMap, List.find?, List.any, List.filter]

/-- C4 amended: on the scores 50, 52, 51, 53, 0 the student who scored 0
    receives only the zero-score flag; no z-score flag is emitted anywhere,
    since the largest z-score in the sample is about 1.79, below the
    threshold 2.  The full output is exactly that one flag. -/
theorem claim_C4_amended :
    detectOutliers
        [⟨"S1", "Alice"⟩, ⟨"S2", "Bob"⟩, ⟨"S3", "Carol"⟩, ⟨"S4", "Dan"⟩, ⟨"S5", "Eve"⟩]
        [⟨"HW", 1, 100⟩]
        [⟨"S1", "HW", 50⟩, ⟨"S2", "HW", 52⟩, ⟨"S3", "HW", 51⟩, ⟨"S4", "HW", 53⟩,
         ⟨"S5", "HW", 0⟩] =
      [⟨"S5", "Eve", "HW", ScoreVal.score 0, 100, Reason.zeroScore⟩] := by
  norm_num +decide [detectOutliers, missingFlags, statFlagsFor, zFlagsFor, zpFlagsFor,
    getStudentGrades, getAssignmentGrades, getStudent, mean, sampleVar,
    List.filterMap, List.flatMap, List.find?, List.any, List.filter]

/-- The missing flags of a single student, characterized. -/
theorem mem_missingFor (st : Student) (assignments : List Assignment)
    (g : List GradeRec) (o : Outlier) :
    o ∈ assignments.filterMap (fun a =>
        if (getStudentGrades g st.id).any (fun p => p.1 == a.title) then none
        else some { studentId := st.id, studentName := st.name, assignment := a.title,
                    score := ScoreVal.missing, maxScore := a.maxScore,
                    reason := Reason.missingGrade }) ↔
      ∃ a ∈ assignments,
        (getStudentGrades g st.id).any (fun p => p.1 == a.title) = false ∧
        o = { studentId := st.id, studentName := st.name, assignment := a.title,
              score := ScoreVal.missing, maxScore := a.maxScore,
              reason := Reason.missingGrade } := by
  simp only [List.mem_filterMap]
  constructor
  · rintro ⟨a, ha, h⟩
    by_cases hc : ((getStudentGrades g st.id).any fun p => p.1 == a.title) = true
    · rw [if_pos hc] at h
      exact absurd h (by simp)
    · rw [if_neg hc] at h
      exact ⟨a, ha, by rwa [Bool.not_eq_true] at hc, (Option.some.inj h).symm⟩
  · rintro ⟨a, ha, hc, rfl⟩
    refine ⟨a, ha, ?_⟩
    rw [if_neg (by simp [hc])]

theorem mem_missingFlags_iff (students : List Student) (assignments : List Assignment)
    (g : List GradeRec) (o : Outlier) :
    o ∈ missingFlags students assignments g ↔
      ∃ st ∈ students, ∃ a ∈ assignments,
        (getStudentGrades g st.id).any (fun p => p.1 == a.title) = false ∧
        o = { studentId := st.id, studentName := st.name, assignment := a.title,
              score := ScoreVal.missing, maxScore := a.maxScore,
              reason := Reason.missingGrade } := by
  simp only [missingFlags, List.mem_flatMap]
  constructor
  · rintro ⟨st, hst, h⟩
    exact ⟨st, hst, (mem_missingFor st assignments g o).1 h⟩
  · rintro ⟨st, hst, h⟩
    exact ⟨st, hst, (mem_missingFor st assignments g o).2 h⟩

/-- Every flag of the z-score loop carries the unusual-score reason and a
    student id the roster resolves. -/
theorem mem_zFlagsFor_props (students : List Student) (a : Assignment)
    (g : List GradeRec) (o : Outlier) (h : o ∈ zFlagsFor students a g) :
    (o.reason = Reason.unusualScore ∧ (getStudent students o.studentId).isSome) ∧
      o.assignment = a.title := by
  simp only [zFlagsFor, List.mem_filterMap] at h
  obtain ⟨p, hp, he⟩ := h
  by_cases hc : 0 < sampleVar ((getAssignmentGrades g a.title).map Prod.snd) ∧
      4 * sampleVar ((getAssignmentGrades g a.title).map Prod.snd) <
        (p.2 - mean ((getAssignmentGrades g a.title).map Prod.snd)) ^ 2
  · rw [if_pos hc] at he
    cases hg : getStudent students p.1 with
    | none => rw [hg] at he; exact absurd he (by simp)
    | some st =>
      rw [hg] at he
      obtain rfl := Option.some.inj he
      exact ⟨⟨rfl, by simp [hg]⟩, rfl⟩
  · rw [if_neg hc] at he
    exact absurd he (by simp)

/-- Every flag of the zero/perfect loop carries a zero-score or perfect-score
    reason and a student id the roster resolves. -/
theorem mem_zpFlagsFor_props (students : List Student) (a : Assignment)
    (g : List GradeRec) (o : Outlier) (h : o ∈ zpFlagsFor students a g) :
    ((o.reason = Reason.zeroScore ∨ o.reason = Reason.perfectScore) ∧
      (getStudent students o.studentId).isSome) ∧ o.assignment = a.title := by
  simp only [zpFlagsFor, List.mem_filterMap] at h
  obtain ⟨p, hp, he⟩ := h
  cases hg : getStudent students p.1 with
  | none => rw [hg] at he; exact absurd he (by simp)
  | some st =>
    rw [hg] at he
    dsimp only at he
    by_cases h0 : p.2 = 0
    · rw [if_pos h0] at he
      obtain rfl := Option.some.inj he
      exact ⟨⟨Or.inl rfl, by simp [hg]⟩, rfl⟩
    · rw [if_neg h0] at he
      by_cases hperf : p.2 = a.maxScore ∧ 5 < (getAssignmentGrades g a.title).length ∧
          mean ((getAssignmentGrades g a.title).map Prod.snd) / a.maxScore * 100 < 75
      · rw [if_pos hperf] at he
        obtain rfl := Option.some.inj he
        exact ⟨⟨Or.inr rfl, by simp [hg]⟩, rfl⟩
      · rw [if_neg hperf] at he
        exact absurd he (by simp)

/-- Every flag of the statistical phase has a non-missing reason and a
    student id the roster resolves. -/
theorem mem_statFlagsFor_props (students : List Student) (a : Assignment)
    (g : List GradeRec) (o : Outlier) (h : o ∈ statFlagsFor students a g) :
    (o.reason ≠ Reason.missingGrade ∧ (getStudent students o.studentId).isSome) ∧
      o.assignment = a.title := by
  unfold statFlagsFor at h
  by_cases hlen : (getAssignmentGrades g a.title).length < 3
  · rw [if_pos hlen] at h
    exact absurd h (by simp)
  · rw [if_neg hlen] at h
    rcases List.mem_append.1 h with h | h
    · obtain ⟨⟨hr, hs⟩, ht⟩ := mem_zFlagsFor_props students a g o h
      exact ⟨⟨by simp [hr], hs⟩, ht⟩
    · obtain ⟨⟨hr, hs⟩, ht⟩ := mem_zpFlagsFor_props students a g o h
      rcases hr with hr | hr <;> exact ⟨⟨by simp [hr], hs⟩, ht⟩

theorem countP_missingFor_ne (st st' : Student) (a : Assignment)
    (assignments : List Assignment) (g : List GradeRec) (hne : st'.id ≠ st.id) :
    (assignments.filterMap (fun a' =>
        if (getStudentGrades g st'.id).any (fun p => p.1 == a'.title) then none
        else some { studentId := st'.id, studentName := st'.name, assignment := a'.title,
                    score := ScoreVal.missing, maxScore := a'.maxScore,
                    reason := Reason.missingGrade })).countP (missingFlagPred st a) = 0 := by
  rw [List.countP_eq_zero]
  intro o ho
  rw [mem_missingFor] at ho
  obtain ⟨a', _, _, rfl⟩ := ho
  simp [missingFlagPred, hne]

theorem countP_missingFor_eq_one (st : Student) (a : Assignment) (g : List GradeRec)
    (assignments : List Assignment) (hmem : a ∈ assignments)
    (hnd : (assignments.map Assignment.title).Nodup)
    (hmiss : (getStudentGrades g st.id).any (fun p => p.1 == a.title) = false) :
    (assignments.filterMap (fun a' =>
        if (getStudentGrades g st.id).any (fun p => p.1 == a'.title) then none
        else some { studentId := st.id, studentName := st.name, assignment := a'.title,
                    score := ScoreVal.missing, maxScore := a'.maxScore,
                    reason := Reason.missingGrade })).countP (missingFlagPred st a) = 1 := by
  induction assignments with
  | nil => exact absurd hmem (by simp)
  | cons b rest ih =>
    rw [List.map_cons, List.nodup_cons] at hnd
    rw [List.filterMap_cons]
    rcases List.mem_cons.1 hmem with rfl | hmem2
    · rw [if_neg (by simp [hmiss])]
      rw [List.countP_cons]
      have hz : (rest.filterMap (fun a' =>
          if (getStudentGrades g st.id).any (fun p => p.1 == a'.title) then none
          else some { studentId := st.id, studentName := st.name, assignment := a'.title,
                      score := ScoreVal.missing, maxScore := a'.maxScore,
                      reason := Reason.missingGrade })).countP (missingFlagPred st a) = 0 := by
        rw [List.countP_eq_zero]
        intro o ho
        rw [mem_missingFor] at ho
        obtain ⟨a', ha', _, rfl⟩ := ho
        have : a'.title ≠ a.title := by
          intro hteq
          exact hnd.1 (hteq ▸ List.mem_map_of_mem Assignment.title ha')
        simp [missingFlagPred, this]
      rw [hz]
      simp [missingFlagPred]
    · have hbt : b.title ≠ a.title := by
        intro hteq
        exact hnd.1 (hteq ▸ List.mem_map_of_mem Assignment.title hmem2)
      by_cases hb : ((getStudentGrades g st.id).any fun p => p.1 == b.title) = true
      · rw [if_pos hb]
        exact ih hmem2 hnd.2
      · rw [if_neg hb, List.countP_cons]
        rw [ih hmem2 hnd.2]
        simp [missingFlagPred, hbt]

theorem countP_missingFlags_eq_one (students : List Student)
    (assignments : List Assignment) (g : List GradeRec) (st : Student) (a : Assignment)
    (hs : (students.map Student.id).Nodup) (hst : st ∈ students)
    (ha : a ∈ assignments) (hnd : (assignments.map Assignment.title).Nodup)
    (hmiss : (getStudentGrades g st.id).any (fun p => p.1 == a.title) = false) :
    (missingFlags students assignments g).countP (missingFlagPred st a) = 1 := by
  induction students with
  | nil => exact absurd hst (by simp)
  | cons s rest ih =>
    rw [List.map_cons, List.nodup_cons] at hs
    rw [missingFlags, List.flatMap_cons, List.countP_append]
    rcases List.mem_cons.1 hst with rfl | hst2
    · have hz : (missingFlags rest assignments g).countP (missingFlagPred st a) = 0 := by
        rw [List.countP_eq_zero]
        intro o ho
        rw [mem_missingFlags_iff] at ho
        obtain ⟨st', hst', a', _, _, rfl⟩ := ho
        have : st'.id ≠ st.id := by
          intro hideq
          exact hs.1 (hideq ▸ List.mem_map_of_mem Student.id hst')
        simp [missingFlagPred, this]
      rw [countP_missingFor_eq_one st a g assignments ha hnd hmiss]
      rw [missingFlags] at hz
      rw [hz]
    · have hne : s.id ≠ st.id := by
        intro hideq
        exact hs.1 (hideq ▸ List.mem_map_of_mem Student.id hst2)
      rw [countP_missingFor_ne st s a assignments g hne]
      rw [missingFlags] at ih
      rw [ih hs.2 hst2]

/-- C5: for every (student, assignment) pair where the student has no recorded
    score for that assignment, detect_outliers emits exactly one outlier with
    the missing-grade reason and the missing score marker, irrespective of
    sample size; and the output splits into all missing-grade flags followed
    by flags whose reason is never missing-grade, so every missing-grade flag
    precedes every statistical, zero-score or perfect-score flag.  The roster
    ids and assignment titles are pairwise distinct, as the source stores both
    in dicts keyed by them. -/
theorem claim_C5 (students : List Student) (assignments : List Assignment)
    (g : List GradeRec)
    (hs : (students.map Student.id).Nodup)
    (hnd : (assignments.map Assignment.title).Nodup) :
    (∀ st ∈ students, ∀ a ∈ assignments,
      (¬ ∃ p ∈ getStudentGrades g st.id, p.1 = a.title) →
      (detectOutliers students assignments g).countP (missingFlagPred st a) = 1) ∧
    ∃ pre post, detectOutliers students assignments g = pre ++ post ∧
      (∀ o ∈ pre, o.reason = Reason.missingGrade ∧ o.score = ScoreVal.missing) ∧
      (∀ o ∈ post, o.reason ≠ Reason.missingGrade) := by
  constructor
  · intro st hst a ha hmiss
    have hmiss2 : ((getStudentGrades g st.id).any fun p => p.1 == a.title) = false := by
      rw [← Bool.not_eq_true, List.any_eq_true]
      simpa using hmiss
    rw [detectOutliers, List.countP_append]
    rw [countP_missingFlags_eq_one students assignments g st a hs hst ha hnd hmiss2]
    have hz : (assignments.flatMap (fun a' => statFlagsFor students a' g)).countP
        (missingFlagPred st a) = 0 := by
      rw [List.countP_eq_zero]
      intro o ho
      obtain ⟨a', _, ho'⟩ := List.mem_flatMap.1 ho
      have := (mem_statFlagsFor_props students a' g o ho').1.1
      simp [missingFlagPred, this]
    rw [hz]
  · refine ⟨missingFlags students assignments g,
      assignments.flatMap (fun a' => statFlagsFor students a' g), rfl, ?_, ?_⟩
    · intro o ho
      obtain ⟨st, _, a', _, _, rfl⟩ := (mem_missingFlags_iff students assignments g o).1 ho
      exact ⟨rfl, rfl⟩
    · intro o ho
      obtain ⟨a', _, ho'⟩ := List.mem_flatMap.1 ho
      exact (mem_statFlagsFor_props students a' g o ho').1.1

theorem claim_C5_witness :
    ((List.map Student.id [⟨"S1", "Alice"⟩]).Nodup ∧
     (List.map Assignment.title [⟨"HW", 1, 100⟩]).Nodup) ∧
    ((∀ st ∈ [(⟨"S1", "Alice"⟩ : Student)], ∀ a ∈ [(⟨"HW", 1, 100⟩ : Assignment)],
      (¬ ∃ p ∈ getStudentGrades [] st.id, p.1 = a.title) →
      (detectOutliers [⟨"S1", "Alice"⟩] [⟨"HW", 1, 100⟩] []).countP
        (missingFlagPred st a) = 1) ∧
    ∃ pre post, detectOutliers [⟨"S1", "Alice"⟩] [⟨"HW", 1, 100⟩] [] = pre ++ post ∧
      (∀ o ∈ pre, o.reason = Reason.missingGrade ∧ o.score = ScoreVal.missing) ∧
      (∀ o ∈ post, o.reason ≠ Reason.missingGrade)) :=
  ⟨⟨by decide, by decide⟩,
   claim_C5 [⟨"S1", "Alice"⟩] [⟨"HW", 1, 100⟩] [] (by decide) (by decide)⟩

/-- Without a roster, neither detector loop can emit a statistical flag. -/
theorem statFlagsFor_nil_students (a : Assignment) (g : List GradeRec) :
    statFlagsFor [] a g = [] := by
  unfold statFlagsFor
  split
  · rfl
  · have hz : zFlagsFor [] a g = [] := by
      unfold zFlagsFor
      rw [List.filterMap_eq_nil_iff]
      intro p _
      split
      · rfl
      · rfl
    have hzp : zpFlagsFor [] a g = [] := by
      unfold zpFlagsFor
      rw [List.filterMap_eq_nil_iff]
      intro p _
      rfl
    rw [hz, hzp]
    rfl

/-- C6: for an assignment with fewer than 3 recorded scores the only flags
    detect_outliers can mention it in are missing-grade flags, and on an empty
    assignment list or an empty roster it returns the empty sequence (the
    model is total, so it cannot raise). -/
theorem claim_C6 (students : List Student) (assignments : List Assignment)
    (g : List GradeRec) :
    (∀ a ∈ assignments, (getAssignmentGrades g a.title).length < 3 →
      ∀ o ∈ detectOutliers students assignments g,
        o.assignment = a.title → o.reason = Reason.missingGrade) ∧
    detectOutliers students [] g = [] ∧
    detectOutliers [] assignments g = [] := by
  refine ⟨?_, ?_, ?_⟩
  · intro a _ hlen o ho hoa
    rcases List.mem_append.1 ho with ho | ho
    · obtain ⟨_, _, _, _, _, rfl⟩ := (mem_missingFlags_iff students assignments g o).1 ho
      rfl
    · obtain ⟨a', _, ho'⟩ := List.mem_flatMap.1 ho
      have ht := (mem_statFlagsFor_props students a' g o ho').2
      have hlen' : (getAssignmentGrades g a'.title).length < 3 := by
        rw [ht.symm.trans hoa]
        exact hlen
      unfold statFlagsFor at ho'
      rw [if_pos hlen'] at ho'
      exact absurd ho' (by simp)
  · simp [detectOutliers, missingFlags]
  · simp [detectOutliers, missingFlags, statFlagsFor_nil_students]

theorem claim_C6_witness :
    ((⟨"HW", 1, 100⟩ : Assignment) ∈ [(⟨"HW", 1, 100⟩ : Assignment)] ∧
     (getAssignmentGrades [⟨"S1", "HW", 50⟩] (Assignment.title ⟨"HW", 1, 100⟩)).length < 3) ∧
    (∀ o ∈ detectOutliers [⟨"S1", "Alice"⟩] [⟨"HW", 1, 100⟩] [⟨"S1", "HW", 50⟩],
      o.assignment = Assignment.title ⟨"HW", 1, 100⟩ → o.reason = Reason.missingGrade) :=
  ⟨⟨by decide, by decide⟩,
   (claim_C6 [⟨"S1", "Alice"⟩] [⟨"HW", 1, 100⟩] [⟨"S1", "HW", 50⟩]).1
     ⟨"HW", 1, 100⟩ (by decide) (by decide)⟩

theorem sum_const_list (l : List ℚ) (c : ℚ) (h : ∀ x ∈ l, x = c) :
    l.sum = c * l.length := by
  induction l with
  | nil => simp
  | cons y t ih =>
    simp only [List.sum_cons, List.length_cons]
    rw [h y (List.mem_cons_self y t), ih (fun x hx => h x (List.mem_cons_of_mem y hx))]
    push_cast
    ring

/-- All scores identical makes the Bessel-corrected sample variance zero, the
    degenerate case claim C7 is about. -/
theorem sampleVar_eq_zero_of_const (l : List ℚ) (c : ℚ) (h : ∀ x ∈ l, x = c) :
    sampleVar l = 0 := by
  rcases eq_or_ne l [] with rfl | hne
  · simp [sampleVar]
  · have hn : (l.length : ℚ) ≠ 0 := by
      exact_mod_cast (List.length_pos.2 hne).ne'
    have hmean : mean l = c := by
      rw [mean, sum_const_list l c h, mul_div_assoc, div_self hn, mul_one]
    have hterms : (l.map (fun x => (x - mean l) ^ 2)).sum = 0 := by
      apply List.sum_eq_zero
      intro x hx
      obtain ⟨y, hy, rfl⟩ := List.mem_map.1 hx
      rw [h y hy, hmean]
      ring
    rw [sampleVar, hterms, zero_div]

/-- C7: for an assignment with at least 3 recorded scores whose sample
    variance is zero (in particular when all scores are identical, by
    `sampleVar_eq_zero_of_const`), the source divides by nothing — every
    z-score is treated as 0 — so the z-score loop emits no flags, and the
    statistical phase is exactly the zero/perfect-score loop, which still
    runs. -/
theorem claim_C7 (students : List Student) (a : Assignment) (g : List GradeRec)
    (hlen : ¬ (getAssignmentGrades g a.title).length < 3)
    (hvar : sampleVar ((getAssignmentGrades g a.title).map Prod.snd) = 0) :
    zFlagsFor students a g = [] ∧
    statFlagsFor students a g = zpFlagsFor students a g := by
  have hz : zFlagsFor students a g = [] := by
    unfold zFlagsFor
    rw [List.filterMap_eq_nil_iff]
    intro p _
    rw [if_neg (by rw [hvar]; simp)]
  refine ⟨hz, ?_⟩
  unfold statFlagsFor
  rw [if_neg hlen, hz, List.nil_append]

theorem claim_C7_witness :
    (¬ (getAssignmentGrades [⟨"S1", "HW", 5⟩, ⟨"S2", "HW", 5⟩, ⟨"S3", "HW", 5⟩]
        (Assignment.title ⟨"HW", 1, 100⟩)).length < 3 ∧
     sampleVar ((getAssignmentGrades [⟨"S1", "HW", 5⟩, ⟨"S2", "HW", 5⟩, ⟨"S3", "HW", 5⟩]
        (Assignment.title ⟨"HW", 1, 100⟩)).map Prod.snd) = 0) ∧
    (zFlagsFor [⟨"S1", "Alice"⟩] ⟨"HW", 1, 100⟩
        [⟨"S1", "HW", 5⟩, ⟨"S2", "HW", 5⟩, ⟨"S3", "HW", 5⟩] = [] ∧
     statFlagsFor [⟨"S1", "Alice"⟩] ⟨"HW", 1, 100⟩
        [⟨"S1", "HW", 5⟩, ⟨"S2", "HW", 5⟩, ⟨"S3", "HW", 5⟩] =
       zpFlagsFor [⟨"S1", "Alice"⟩] ⟨"HW", 1, 100⟩
        [⟨"S1", "HW", 5⟩, ⟨"S2", "HW", 5⟩, ⟨"S3", "HW", 5⟩]) :=
  ⟨⟨by decide, by norm_num +decide [sampleVar, mean, getAssignmentGrades, List.filter]⟩,
   claim_C7 [⟨"S1", "Alice"⟩] ⟨"HW", 1, 100⟩
     [⟨"S1", "HW", 5⟩, ⟨"S2", "HW", 5⟩, ⟨"S3", "HW", 5⟩] (by decide)
     (by norm_num +decide [sampleVar, mean, getAssignmentGrades, List.filter])⟩

/-- Characterization of the perfect-score flags of the zero/perfect loop:
    for a recorded (student id, score) pair the flag exists exactly when the
    score equals max_score, more than 5 scores are recorded, the class average
    percentage is below 75, and the roster resolves the student id. -/
theorem zpFlagsFor_perfect_iff (students : List Student) (a : Assignment)
    (g : List GradeRec)
    (hnd : ((getAssignmentGrades g a.title).map Prod.fst).Nodup)
    (hmax : 0 < a.maxScore)
    (p : String × ℚ) (hp : p ∈ getAssignmentGrades g a.title) :
    (∃ o ∈ zpFlagsFor students a g,
       o.studentId = p.1 ∧ o.reason = Reason.perfectScore) ↔
      (p.2 = a.maxScore ∧ 5 < (getAssignmentGrades g a.title).length ∧
       mean ((getAssignmentGrades g a.title).map Prod.snd) / a.maxScore * 100 < 75 ∧
       (getStudent students p.1).isSome) := by
  constructor
  · rintro ⟨o, ho, hid, hreason⟩
    simp only [zpFlagsFor, List.mem_filterMap] at ho
    obtain ⟨q, hq, he⟩ := ho
    cases hg : getStudent students q.1 with
    | none => rw [hg] at he; exact absurd he (by simp)
    | some st =>
      rw [hg] at he
      dsimp only at he
      by_cases h0 : q.2 = 0
      · rw [if_pos h0] at he
        obtain rfl := Option.some.inj he
        exact absurd hreason (by simp)
      · rw [if_neg h0] at he
        by_cases hperf : q.2 = a.maxScore ∧ 5 < (getAssignmentGrades g a.title).length ∧
            mean ((getAssignmentGrades g a.title).map Prod.snd) / a.maxScore * 100 < 75
        · rw [if_pos hperf] at he
          obtain rfl := Option.some.inj he
          obtain rfl : q = p := List.inj_on_of_nodup_map hnd hq hp hid
          exact ⟨hperf.1, hperf.2.1, hperf.2.2, by simp [hg]⟩
        · rw [if_neg hperf] at he
          exact absurd he (by simp)
  · rintro ⟨hpm, hn5, havg, hsome⟩
    obtain ⟨st, hg⟩ := Option.isSome_iff_exists.1 hsome
    refine ⟨{ studentId := p.1, studentName := st.name, assignment := a.title,
              score := ScoreVal.score p.2, maxScore := a.maxScore,
              reason := Reason.perfectScore }, ?_, rfl, rfl⟩
    simp only [zpFlagsFor, List.mem_filterMap]
    refine ⟨p, hp, ?_⟩
    rw [hg]
    dsimp only
    have h0 : p.2 ≠ 0 := by rw [hpm]; exact hmax.ne'
    rw [if_neg h0, if_pos ⟨hpm, hn5, havg⟩]

theorem statFlagsFor_perfect_iff (students : List Student) (a : Assignment)
    (g : List GradeRec)
    (hlen : ¬ (getAssignmentGrades g a.title).length < 3)
    (hnd : ((getAssignmentGrades g a.title).map Prod.fst).Nodup)
    (hmax : 0 < a.maxScore)
    (p : String × ℚ) (hp : p ∈ getAssignmentGrades g a.title) :
    (∃ o ∈ statFlagsFor students a g,
       o.studentId = p.1 ∧ o.reason = Reason.perfectScore) ↔
      (p.2 = a.maxScore ∧ 5 < (getAssignmentGrades g a.title).length ∧
       mean ((getAssignmentGrades g a.title).map Prod.snd) / a.maxScore * 100 < 75 ∧
       (getStudent students p.1).isSome) := by
  unfold statFlagsFor
  rw [if_neg hlen]
  rw [← zpFlagsFor_perfect_iff students a g hnd hmax p hp]
  constructor
  · rintro ⟨o, ho, hid, hr⟩
    rcases List.mem_append.1 ho with ho | ho
    · have := (mem_zFlagsFor_props students a g o ho).1.1
      rw [this] at hr
      exact absurd hr (by simp)
    · exact ⟨o, ho, hid, hr⟩
  · rintro ⟨o, ho, hid, hr⟩
    exact ⟨o, List.mem_append_right _ ho, hid, hr⟩

/-- C8 amended: for an assignment with at least 3 recorded scores and
    pairwise-distinct recorded student ids (the source reads them from a
    dict keyed by student id) and a positive max score, a recorded score
    receives a perfect-score flag exactly when it equals max_score, the
    assignment has more than 5 recorded scores, the class average percentage
    is strictly below 75, AND the roster lookup resolves the recorded student
    id; the roster condition is the amendment the counterexample forces. -/
theorem claim_C8_amended (students : List Student) (assignments : List Assignment)
    (g : List GradeRec) (a : Assignment) (ha : a ∈ assignments)
    (hand : (assignments.map Assignment.title).Nodup)
    (hlen : ¬ (getAssignmentGrades g a.title).length < 3)
    (hnd : ((getAssignmentGrades g a.title).map Prod.fst).Nodup)
    (hmax : 0 < a.maxScore)
    (p : String × ℚ) (hp : p ∈ getAssignmentGrades g a.title) :
    (∃ o ∈ detectOutliers students assignments g,
       o.assignment = a.title ∧ o.studentId = p.1 ∧
       o.reason = Reason.perfectScore) ↔
      (p.2 = a.maxScore ∧ 5 < (getAssignmentGrades g a.title).length ∧
       mean ((getAssignmentGrades g a.title).map Prod.snd) / a.maxScore * 100 < 75 ∧
       (getStudent students p.1).isSome) := by
  rw [← statFlagsFor_perfect_iff students a g hlen hnd hmax p hp]
  constructor
  · rintro ⟨o, ho, hasn, hid, hr⟩
    rcases List.mem_append.1 ho with ho | ho
    · obtain ⟨_, _, _, _, _, rfl⟩ := (mem_missingFlags_iff students assignments g o).1 ho
      exact absurd hr (by simp)
    · obtain ⟨a', ha', ho'⟩ := List.mem_flatMap.1 ho
      have ht := (mem_statFlagsFor_props students a' g o ho').2
      obtain rfl : a' = a :=
        List.inj_on_of_nodup_map hand ha' ha (ht.symm.trans hasn)
      exact ⟨o, ho', hid, hr⟩
  · rintro ⟨o, ho, hid, hr⟩
    refine ⟨o, List.mem_append_right _ (List.mem_flatMap.2 ⟨a, ha, ho⟩),
      (mem_statFlagsFor_props students a g o ho).2, hid, hr⟩

/-- C8 counterexample: six recorded scores 5, 5, 5, 5, 5, 10 on an
    assignment with max score 10; the 10 is recorded under id S6, which the
    roster (S1..S5) does not contain.  All conditions of the claim hold for
    that score — it equals max_score, more than 5 scores are recorded, and
    the class average percentage 350/6 ≈ 58.3 is below 75 — yet
    detect_outliers emits no perfect-score flag for S6 (its output on this
    input is empty). -/
theorem claim_C8_counterexample :
    (¬ (getAssignmentGrades
        [⟨"S1", "HW", 5⟩, ⟨"S2", "HW", 5⟩, ⟨"S3", "HW", 5⟩, ⟨"S4", "HW", 5⟩,
         ⟨"S5", "HW", 5⟩, ⟨"S6", "HW", 10⟩] "HW").length < 3 ∧
     ("S6", (10 : ℚ)) ∈ getAssignmentGrades
        [⟨"S1", "HW", 5⟩, ⟨"S2", "HW", 5⟩, ⟨"S3", "HW", 5⟩, ⟨"S4", "HW", 5⟩,
         ⟨"S5", "HW", 5⟩, ⟨"S6", "HW", 10⟩] "HW" ∧
     (10 : ℚ) = Assignment.maxScore ⟨"HW", 1, 10⟩ ∧
     5 < (getAssignmentGrades
        [⟨"S1", "HW", 5⟩, ⟨"S2", "HW", 5⟩, ⟨"S3", "HW", 5⟩, ⟨"S4", "HW", 5⟩,
         ⟨"S5", "HW", 5⟩, ⟨"S6", "HW", 10⟩] "HW").length ∧
     mean ((getAssignmentGrades
        [⟨"S1", "HW", 5⟩, ⟨"S2", "HW", 5⟩, ⟨"S3", "HW", 5⟩, ⟨"S4", "HW", 5⟩,
         ⟨"S5", "HW", 5⟩, ⟨"S6", "HW", 10⟩] "HW").map Prod.snd) /
       Assignment.maxScore ⟨"HW", 1, 10⟩ * 100 < 75) ∧
    ¬ ∃ o ∈ detectOutliers
        [⟨"S1", "Alice"⟩, ⟨"S2", "Bob"⟩, ⟨"S3", "Carol"⟩, ⟨"S4", "Dan"⟩, ⟨"S5", "Eve"⟩]
        [⟨"HW", 1, 10⟩]
        [⟨"S1", "HW", 5⟩, ⟨"S2", "HW", 5⟩, ⟨"S3", "HW", 5⟩, ⟨"S4", "HW", 5⟩,
         ⟨"S5", "HW", 5⟩, ⟨"S6", "HW", 10⟩],
      o.studentId = "S6" ∧ o.reason = Reason.perfectScore := by
  constructor
  · refine ⟨by decide, by decide, by norm_num, by decide, ?_⟩
    norm_num +decide [mean, getAssignmentGrades, List.filter]
  · have hd : detectOutliers
        [⟨"S1", "Alice"⟩, ⟨"S2", "Bob"⟩, ⟨"S3", "Carol"⟩, ⟨"S4", "Dan"⟩, ⟨"S5", "Eve"⟩]
        [⟨"HW", 1, 10⟩]
        [⟨"S1", "HW", 5⟩, ⟨"S2", "HW", 5⟩, ⟨"S3", "HW", 5⟩, ⟨"S4", "HW", 5⟩,
         ⟨"S5", "HW", 5⟩, ⟨"S6", "HW", 10⟩] = [] := by
      norm_num +decide [detectOutliers, missingFlags, statFlagsFor, zFlagsFor, zpFlagsFor,
        getStudentGrades, getAssignmentGrades, getStudent, mean, sampleVar,
        List.filterMap, List.flatMap, List.find?, List.any, List.filter]
    rw [hd]
    simp

theorem claim_C8_amended_witness :
    ((⟨"HW", 1, 10⟩ : Assignment) ∈ [(⟨"HW", 1, 10⟩ : Assignment)] ∧
     ¬ (getAssignmentGrades
        [⟨"S1", "HW", 5⟩, ⟨"S2", "HW", 5⟩, ⟨"S3", "HW", 5⟩, ⟨"S4", "HW", 5⟩,
         ⟨"S5", "HW", 5⟩, ⟨"S6", "HW", 10⟩] (Assignment.title ⟨"HW", 1, 10⟩)).length < 3 ∧
     (0 : ℚ) < Assignment.maxScore ⟨"HW", 1, 10⟩ ∧
     ("S6", (10 : ℚ)) ∈ getAssignmentGrades
        [⟨"S1", "HW", 5⟩, ⟨"S2", "HW", 5⟩, ⟨"S3", "HW", 5⟩, ⟨"S4", "HW", 5⟩,
         ⟨"S5", "HW", 5⟩, ⟨"S6", "HW", 10⟩] (Assignment.title ⟨"HW", 1, 10⟩)) ∧
    ((∃ o ∈ detectOutliers
        [⟨"S1", "Alice"⟩, ⟨"S2", "Bob"⟩, ⟨"S3", "Carol"⟩, ⟨"S4", "Dan"⟩,
         ⟨"S5", "Eve"⟩, ⟨"S6", "Frank"⟩]
        [⟨"HW", 1, 10⟩]
        [⟨"S1", "HW", 5⟩, ⟨"S2", "HW", 5⟩, ⟨"S3", "HW", 5⟩, ⟨"S4", "HW", 5⟩,
         ⟨"S5", "HW", 5⟩, ⟨"S6", "HW", 10⟩],
       o.assignment = Assignment.title ⟨"HW", 1, 10⟩ ∧ o.studentId = ("S6", (10 : ℚ)).1 ∧
       o.reason = Reason.perfectScore) ↔
      (("S6", (10 : ℚ)).2 = Assignment.maxScore ⟨"HW", 1, 10⟩ ∧
       5 < (getAssignmentGrades
        [⟨"S1", "HW", 5⟩, ⟨"S2", "HW", 5⟩, ⟨"S3", "HW", 5⟩, ⟨"S4", "HW", 5⟩,
         ⟨"S5", "HW", 5⟩, ⟨"S6", "HW", 10⟩] (Assignment.title ⟨"HW", 1, 10⟩)).length ∧
       mean ((getAssignmentGrades
        [⟨"S1", "HW", 5⟩, ⟨"S2", "HW", 5⟩, ⟨"S3", "HW", 5⟩, ⟨"S4", "HW", 5⟩,
         ⟨"S5", "HW", 5⟩, ⟨"S6", "HW", 10⟩] (Assignment.title ⟨"HW", 1, 10⟩)).map
          Prod.snd) / Assignment.maxScore ⟨"HW", 1, 10⟩ * 100 < 75 ∧
       (getStudent
        [⟨"S1", "Alice"⟩, ⟨"S2", "Bob"⟩, ⟨"S3", "Carol"⟩, ⟨"S4", "Dan"⟩,
         ⟨"S5", "Eve"⟩, ⟨"S6", "Frank"⟩] ("S6", (10 : ℚ)).1).isSome)) :=
  ⟨⟨by decide, by decide, by norm_num, by decide⟩,
   claim_C8_amended
     [⟨"S1", "Alice"⟩, ⟨"S2", "Bob"⟩, ⟨"S3", "Carol"⟩, ⟨"S4", "Dan"⟩,
      ⟨"S5", "Eve"⟩, ⟨"S6", "Frank"⟩]
     [⟨"HW", 1, 10⟩]
     [⟨"S1", "HW", 5⟩, ⟨"S2", "HW", 5⟩, ⟨"S3", "HW", 5⟩, ⟨"S4", "HW", 5⟩,
      ⟨"S5", "HW", 5⟩, ⟨"S6", "HW", 10⟩]
     ⟨"HW", 1, 10⟩ (by decide) (by decide) (by decide) (by decide) (by norm_num)
     ("S6", (10 : ℚ)) (by decide)⟩

theorem insertDesc_perm (x : RankedEntry) (l : List RankedEntry) :
    (insertDesc x l).Perm (x :: l) := by
  induction l with
  | nil => exact List.Perm.refl _
  | cons y ys ih =>
    by_cases hc : y.weightedTotal > x.weightedTotal
    · simp only [insertDesc, if_pos hc]
      exact (ih.cons y).trans (List.Perm.swap x y ys)
    · simp only [insertDesc, if_neg hc]
      exact List.Perm.refl _

theorem sortDesc_perm (l : List RankedEntry) : (sortDesc l).Perm l := by
  induction l with
  | nil => exact List.Perm.refl _
  | cons x xs ih =>
    simp only [sortDesc]
    exact (insertDesc_perm x (sortDesc xs)).trans (ih.cons x)

theorem insertDesc_sorted (x : RankedEntry) (l : List RankedEntry)
    (h : l.Pairwise (fun p q => q.weightedTotal ≤ p.weightedTotal)) :
    (insertDesc x l).Pairwise (fun p q => q.weightedTotal ≤ p.weightedTotal) := by
  induction l with
  | nil => simp [insertDesc]
  | cons y ys ih =>
    rw [List.pairwise_cons] at h
    by_cases hc : y.weightedTotal > x.weightedTotal
    · simp only [insertDesc, if_pos hc]
      rw [List.pairwise_cons]
      refine ⟨?_, ih h.2⟩
      intro z hz
      rcases List.mem_cons.1 ((insertDesc_perm x ys).mem_iff.1 hz) with rfl | hzys
      · exact le_of_lt hc
      · exact h.1 z hzys
    · simp only [insertDesc, if_neg hc]
      push_neg at hc
      rw [List.pairwise_cons]
      refine ⟨?_, List.pairwise_cons.2 ⟨h.1, h.2⟩⟩
      intro z hz
      rcases List.mem_cons.1 hz with rfl | hzys
      · exact hc
      · exact le_trans (h.1 z hzys) hc

theorem sortDesc_sorted (l : List RankedEntry) :
    (sortDesc l).Pairwise (fun p q => q.weightedTotal ≤ p.weightedTotal) := by
  induction l with
  | nil => simp [sortDesc]
  | cons x xs ih =>
    simp only [sortDesc]
    exact insertDesc_sorted x (sortDesc xs) ih

theorem insertDesc_stable (pos : RankedEntry → ℕ) (x : RankedEntry)
    (l : List RankedEntry)
    (hl : l.Pairwise (fun p q => p.weightedTotal > q.weightedTotal ∨
      (p.weightedTotal = q.weightedTotal ∧ pos p < pos q)))
    (hx : ∀ y ∈ l, pos x < pos y) :
    (insertDesc x l).Pairwise (fun p q => p.weightedTotal > q.weightedTotal ∨
      (p.weightedTotal = q.weightedTotal ∧ pos p < pos q)) := by
  induction l with
  | nil => simp [insertDesc]
  | cons y ys ih =>
    rw [List.pairwise_cons] at hl
    by_cases hc : y.weightedTotal > x.weightedTotal
    · simp only [insertDesc, if_pos hc]
      rw [List.pairwise_cons]
      refine ⟨?_, ih hl.2 (fun z hz => hx z (List.mem_cons_of_mem y hz))⟩
      intro z hz
      rcases List.mem_cons.1 ((insertDesc_perm x ys).mem_iff.1 hz) with rfl | hzys
      · exact Or.inl hc
      · exact hl.1 z hzys
    · simp only [insertDesc, if_neg hc]
      push_neg at hc
      rw [List.pairwise_cons]
      refine ⟨?_, List.pairwise_cons.2 ⟨hl.1, hl.2⟩⟩
      intro z hz
      rcases List.mem_cons.1 hz with rfl | hzys
      · rcases lt_or_eq_of_le hc with hlt | heq
        · exact Or.inl hlt
        · exact Or.inr ⟨heq.symm, hx z (List.mem_cons_self z ys)⟩
      · rcases hl.1 z hzys with hyz | ⟨hyz, _⟩
        · exact Or.inl (lt_of_lt_of_le hyz hc)
        · rcases lt_or_eq_of_le hc with hlt | heq
          · exact Or.inl (hyz ▸ hlt)
          · exact Or.inr ⟨heq.symm.trans hyz, hx z (List.mem_cons_of_mem y hzys)⟩

theorem sortDesc_stable (pos : RankedEntry → ℕ) (l : List RankedEntry)
    (h : l.Pairwise (fun p q => pos p < pos q)) :
    (sortDesc l).Pairwise (fun p q => p.weightedTotal > q.weightedTotal ∨
      (p.weightedTotal = q.weightedTotal ∧ pos p < pos q)) := by
  induction l with
  | nil => simp [sortDesc]
  | cons x xs ih =>
    rw [List.pairwise_cons] at h
    simp only [sortDesc]
    exact insertDesc_stable pos x (sortDesc xs) (ih h.2)
      (fun y hy => h.1 y ((sortDesc_perm xs).mem_iff.1 hy))

theorem roster_pairwise_pos (students : List Student)
    (h : (students.map Student.id).Nodup) :
    students.Pairwise
      (fun s t => rosterIndex students s.id < rosterIndex students t.id) := by
  rw [List.pairwise_iff_get]
  intro i j hij
  have hidx : ∀ (k : Fin students.length),
      rosterIndex students (students.get k).id = k := by
    intro k
    unfold rosterIndex
    have hk : (students.get k).id = (students.map Student.id).get
        ⟨k, by simpa using k.isLt⟩ := by simp
    rw [hk]
    simpa using List.get_indexOf h ⟨k, by simpa using k.isLt⟩
  rw [hidx i, hidx j]
  exact hij

theorem mem_rankResults_iff (students : List Student) (assignments : List Assignment)
    (g : List GradeRec) (e : RankedEntry) :
    e ∈ rankResults students assignments g ↔
      ∃ st ∈ students, ∃ f : FinalGrade,
        calculateStudentFinal g assignments st.id = some f ∧
        e = { studentId := st.id, name := st.name, weightedTotal := f.weightedTotal,
              letterGrade := f.letterGrade } := by
  simp only [rankResults, List.mem_filterMap]
  constructor
  · rintro ⟨st, hst, he⟩
    rw [Option.map_eq_some'] at he
    obtain ⟨f, hf, rfl⟩ := he
    exact ⟨st, hst, f, hf, rfl⟩
  · rintro ⟨st, hst, f, hf, rfl⟩
    exact ⟨st, hst, by rw [hf]; rfl⟩

theorem rankResults_pos_pairwise (students : List Student)
    (assignments : List Assignment) (g : List GradeRec)
    (h : (students.map Student.id).Nodup) :
    (rankResults students assignments g).Pairwise
      (fun p q => rosterIndex students p.studentId <
        rosterIndex students q.studentId) := by
  unfold rankResults
  refine List.Pairwise.filterMap _ ?_ (roster_pairwise_pos students h)
  intro s t hst b hb b' hb'
  rw [Option.mem_def, Option.map_eq_some'] at hb hb'
  obtain ⟨f1, _, rfl⟩ := hb
  obtain ⟨f2, _, rfl⟩ := hb'
  exact hst

/-- C9: calculate_final_grades returns the entries sorted non-increasingly by
    weighted total; its output is a permutation of the unsorted per-student
    results, one per student whose final grade exists; an entry appears
    exactly for the roster students with at least one recorded score; and —
    the roster ids being distinct — ties are broken by roster order (the sort
    is stable), which with the sortedness makes the output a deterministic
    function of the input. -/
theorem claim_C9 (students : List Student) (assignments : List Assignment)
    (g : List GradeRec) :
    (calculateFinalGrades students assignments g).Pairwise
      (fun p q => q.weightedTotal ≤ p.weightedTotal) ∧
    (calculateFinalGrades students assignments g).Perm
      (rankResults students assignments g) ∧
    (∀ e ∈ calculateFinalGrades students assignments g,
      ∃ st ∈ students, e.studentId = st.id ∧ getStudentGrades g st.id ≠ []) ∧
    (∀ st ∈ students, getStudentGrades g st.id ≠ [] →
      ∃ e ∈ calculateFinalGrades students assignments g, e.studentId = st.id) ∧
    ((students.map Student.id).Nodup →
      (calculateFinalGrades students assignments g).Pairwise
        (fun p q => p.weightedTotal > q.weightedTotal ∨
          (p.weightedTotal = q.weightedTotal ∧
           rosterIndex students p.studentId < rosterIndex students q.studentId))) := by
  refine ⟨sortDesc_sorted _, sortDesc_perm _, ?_, ?_, ?_⟩
  · intro e he
    obtain ⟨st, hst, f, hf, rfl⟩ := (mem_rankResults_iff students assignments g e).1
      ((sortDesc_perm _).mem_iff.1 he)
    refine ⟨st, hst, rfl, ?_⟩
    intro hempty
    rw [← calculateStudentFinal_none_iff g assignments st.id] at hempty
    rw [hempty] at hf
    exact Option.noConfusion hf
  · intro st hst hne
    obtain ⟨f, hf⟩ := Option.ne_none_iff_exists'.1
      (fun hn => hne ((calculateStudentFinal_none_iff g assignments st.id).1 hn))
    refine ⟨{ studentId := st.id, name := st.name, weightedTotal := f.weightedTotal,
              letterGrade := f.letterGrade }, ?_, rfl⟩
    exact (sortDesc_perm _).mem_iff.2
      ((mem_rankResults_iff students assignments g _).2 ⟨st, hst, f, hf, rfl⟩)
  · intro hnd
    exact sortDesc_stable _ _ (rankResults_pos_pairwise students assignments g hnd)

theorem claim_C9_witness :
    (List.map Student.id [⟨"S1", "Alice"⟩, ⟨"S2", "Bob"⟩]).Nodup ∧
    (calculateFinalGrades [⟨"S1", "Alice"⟩, ⟨"S2", "Bob"⟩] [⟨"HW", 1, 100⟩]
        [⟨"S1", "HW", 50⟩, ⟨"S2", "HW", 50⟩]).Pairwise
      (fun p q => p.weightedTotal > q.weightedTotal ∨
        (p.weightedTotal = q.weightedTotal ∧
         rosterIndex [⟨"S1", "Alice"⟩, ⟨"S2", "Bob"⟩] p.studentId <
           rosterIndex [⟨"S1", "Alice"⟩, ⟨"S2", "Bob"⟩] q.studentId)) :=
  ⟨by decide,
   (claim_C9 [⟨"S1", "Alice"⟩, ⟨"S2", "Bob"⟩] [⟨"HW", 1, 100⟩]
     [⟨"S1", "HW", 50⟩, ⟨"S2", "HW", 50⟩]).2.2.2.2 (by decide)⟩

/-- C10: every statistical (non-missing-reason) flag of detect_outliers names
    a student id the roster lookup resolves, so a score recorded under an
    unknown id is never flagged itself; yet such a score still counts toward
    the sample-size gates, mean and standard deviation used on the other
    scores: with roster only S1 and scores S1 ↦ 0, G1 ↦ 5, G2 ↦ 5 (G1, G2
    unknown), the two unknown scores push the sample size to 3 and S1's zero
    score is flagged, while with S1's score alone (sample size 1) it is not. -/
theorem claim_C10 :
    (∀ (students : List Student) (assignments : List Assignment) (g : List GradeRec),
      ∀ o ∈ detectOutliers students assignments g, o.reason ≠ Reason.missingGrade →
        (getStudent students o.studentId).isSome) ∧
    detectOutliers [⟨"S1", "Alice"⟩] [⟨"HW", 1, 100⟩]
      [⟨"S1", "HW", 0⟩, ⟨"G1", "HW", 5⟩, ⟨"G2", "HW", 5⟩] =
      [⟨"S1", "Alice", "HW", ScoreVal.score 0, 100, Reason.zeroScore⟩] ∧
    detectOutliers [⟨"S1", "Alice"⟩] [⟨"HW", 1, 100⟩] [⟨"S1", "HW", 0⟩] = [] := by
  refine ⟨?_, ?_, ?_⟩
  · intro students assignments g o ho hreason
    rcases List.mem_append.1 ho with ho | ho
    · obtain ⟨_, _, _, _, _, rfl⟩ :=
        (mem_missingFlags_iff students assignments g o).1 ho
      exact absurd rfl hreason
    · obtain ⟨a', _, ho'⟩ := List.mem_flatMap.1 ho
      exact (mem_statFlagsFor_props students a' g o ho').1.2
  · norm_num +decide [detectOutliers, missingFlags, statFlagsFor, zFlagsFor, zpFlagsFor,
      getStudentGrades, getAssignmentGrades, getStudent, mean, sampleVar,
      List.filterMap, List.flatMap, List.find?, List.any, List.filter]
  · norm_num +decide [detectOutliers, missingFlags, statFlagsFor, zFlagsFor, zpFlagsFor,
      getStudentGrades, getAssignmentGrades, getStudent, mean, sampleVar,
      List.filterMap, List.flatMap, List.find?, List.any, List.filter]

theorem claim_C10_witness :
    (getStudent [(⟨"S1", "Alice"⟩ : Student)] "S1").isSome :=
  claim_C10.1 [⟨"S1", "Alice"⟩] [⟨"HW", 1, 100⟩]
    [⟨"S1", "HW", 0⟩, ⟨"G1", "HW", 5⟩, ⟨"G2", "HW", 5⟩]
    ⟨"S1", "Alice", "HW", ScoreVal.score 0, 100, Reason.zeroScore⟩
    (by rw [claim_C10.2.1]; exact List.mem_singleton.2 rfl)
    (by decide)

end PyGrade
